import Mathlib

/-!
Shallow embedding of `src/link_checker.py` (a Medium.com link checker) and
verification of its specification claims.

Modelling conventions:
- Python strings are Lean `String`; the handful of indexing/slicing idioms the
  code uses (`s[0]`, `s[-1]`, `s[:-1]`, `s.split('?')[0]`, `x in s`) are embedded
  as explicit helper functions on `String` that raise the same exceptions Python
  would (via `Except PyError`).
- The network is a deterministic environment `Net`: `fetch` maps a URL to
  `some` response (requests.get succeeded, redirects already followed) or `none`
  (requests.get raised a network-level exception, e.g. ConnectionError).
  `requests.get` on a URL without an http/https scheme raises MissingSchema
  without touching the network.
- A `Response` carries the final resolved URL (`response.url`), the status code,
  the redirect history (as the URLs of the intermediate responses, which is all
  the code reads from them), and the parsed form of the body (`page`), standing
  for `BeautifulSoup(response.text)`.
- `bool(response)` in requests is `response.ok`, i.e. `status_code < 400`
  (requests.models.Response.__bool__); this is embedded as `Response.ok`.
- bs4: `tag['attr']` raises KeyError when the attribute is missing
  (Tag.__getitem__ is `self.attrs[key]`); a Tag itself is always truthy
  (Tag.__bool__ returns True), so `if link:` tests `link is not None`.
- Wall-clock time is a `Nat` counter threaded through the effectful functions:
  every successful HTTP request advances it by one, and `str(time.time())`
  reads the current value, string-encoded. This makes "a timestamp taken after
  that article's checking completes" an actual statement about the run.
- `logging` calls only write to stdout and are not modelled.
- `tldextract.extract(u).fqdn` is modelled as an environment function
  `Net.fqdn` (it is a pure library function of its string argument).
-/

namespace LinkChecker

/-- Python exceptions that the embedded code paths can raise. -/
inductive PyError where
  /-- bs4 `Tag.__getitem__` on a missing attribute (`self.attrs[key]`). -/
  | keyError
  /-- attribute access on `None` (e.g. `None.find_all`). -/
  | attributeError
  /-- indexing an empty string (`''[0]`, `''[-1]`). -/
  | indexError
  /-- `requests.get` on a URL without an http/https scheme. -/
  | missingSchema
  /-- network-level failure inside `requests.get` (ConnectionError, timeout). -/
  | connectionError
deriving DecidableEq, Repr

/-- An HTML anchor (`<a>`) element as the code consumes it: an optional
`href` attribute and its visible text (`get_text()` before stripping). -/
structure Tag where
  href : Option String
  text : String
deriving DecidableEq, Repr

/-- One `<article>` content block: the `<a>` elements inside it, in document
order. -/
structure ArticleBlock where
  anchors : List Tag
deriving DecidableEq, Repr

/-- A parsed HTML page, as far as the code queries it: its `<article>` blocks
in document order (`soup.find('article')` is the head, `soup.find_all` the
whole list). -/
structure Page where
  articles : List ArticleBlock
deriving DecidableEq, Repr

/-- A `requests.Response`: final resolved URL, status code, redirect history
(the URLs of the intermediate responses), and the parsed body. -/
structure Response where
  url : String
  status_code : Nat
  history : List String
  page : Page
deriving DecidableEq, Repr

/-- requests truthiness: `bool(response)` is `response.ok`, i.e.
`status_code < 400` (`requests.models.Response.__bool__`). -/
def Response.ok (r : Response) : Bool := r.status_code < 400

/-- The deterministic environment a run executes against: the network and the
public-suffix-aware domain extractor `tldextract.extract(u).fqdn`. -/
structure Net where
  fetch : String → Option Response
  fqdn : String → String

/-- Python `pat in s`: `pat` occurs as a contiguous substring of `s`
(helper on char lists). -/
def containsAux (pat : List Char) : List Char → Bool
  | [] => pat.isPrefixOf []
  | c :: cs => pat.isPrefixOf (c :: cs) || containsAux pat cs

/-- Python `pat in s` on strings. -/
def pyContains (pat s : String) : Bool := containsAux pat.toList s.toList

/-- Python `s.split('?')[0]`: everything before the first `'?'` (the whole
string if there is none). -/
def pySplitQ (s : String) : String := ⟨s.toList.takeWhile (fun c => c ≠ '?')⟩

/-- Python `s[0]` as an option (`none` = IndexError). -/
def pyFirstChar (s : String) : Option Char := s.toList.head?

/-- Python `s[-1]` as an option (`none` = IndexError). -/
def pyLastChar (s : String) : Option Char := s.toList.getLast?

/-- Python `s[:-1]`. -/
def pyDropLast (s : String) : String := ⟨s.toList.dropLast⟩

/-- Python `s.strip()` — the whitespace-stripping that
`get_text(strip=True)` applies to an anchor's visible text: drop leading and
trailing whitespace. -/
def pyStrip (s : String) : String :=
  ⟨((s.toList.dropWhile Char.isWhitespace).reverse.dropWhile
      Char.isWhitespace).reverse⟩

/-- `requests.get` requires an http/https scheme; anything else raises
MissingSchema (in particular the empty string). -/
def hasScheme (u : String) : Bool :=
  "http://".toList.isPrefixOf u.toList || "https://".toList.isPrefixOf u.toList

/-- `make_request(url)` (src/link_checker.py:14-23): a single `requests.get`,
redirects followed. Raises MissingSchema on a scheme-less URL, raises a
connection error when the network fails, otherwise returns the response and
advances the clock. -/
def make_request (net : Net) (t : Nat) (url : String) :
    Except PyError (Response × Nat) :=
  if hasScheme url = false then .error .missingSchema
  else
    match net.fetch url with
    | some r => .ok (r, t + 1)
    | none => .error .connectionError

/-- `extract_href(a, current_domain, scheme, strip_params)`
(src/link_checker.py:58-81). The Python defaults are `scheme="https"`,
`strip_params=True`; call sites below pass them explicitly.

Line-by-line: the `try: href = a['href'] except AttributeError: return ''`
block never returns `''` for a Tag without the attribute, because bs4 raises
KeyError, which the `except AttributeError` clause does not catch — so the
KeyError propagates. Then the query string is stripped (unless the href
matches the `'youtube.com/watch'` allow-list or stripping is disabled), and
`href[0] == '/'` (IndexError on an empty string) decides whether
`scheme://current_domain` is prepended. -/
def extract_href (a : Tag) (current_domain scheme : String)
    (strip_params : Bool) : Except PyError String :=
  match a.href with
  | none => .error .keyError
  | some href0 =>
    let href1 :=
      if strip_params && !(pyContains "youtube.com/watch" href0) then
        pySplitQ href0
      else href0
    match pyFirstChar href1 with
    | none => .error .indexError
    | some c =>
      .ok (if c = '/' then scheme ++ "://" ++ current_domain ++ href1 else href1)

/-- A checked hyperlink (class `Link`, src/link_checker.py:117-128), with the
derived `final_url` field materialised. -/
structure Link where
  url : String
  anchor : String
  http_status : Nat
  redirect_chain : List String
  final_url : String
deriving DecidableEq, Repr

/-- `Link.__init__` (src/link_checker.py:118-128): `redirect_chain` defaults
to `[]` when the argument is `None` or empty (Python truthiness of a list),
and `final_url` is the given url when the chain is empty, else the chain's
last element. -/
def Link.init (url anchor : String) (http_status : Nat)
    (redirect_chain : Option (List String)) : Link :=
  let rc := match redirect_chain with
    | some l => if l.isEmpty then [] else l
    | none => []
  { url := url, anchor := anchor, http_status := http_status,
    redirect_chain := rc,
    final_url := if rc.length = 0 then url else rc.getLastD url }

/-- `Link.create_link(url, anchor)` (src/link_checker.py:130-141): performs
the fetch (exceptions propagate — there is no try/except), then
`if not data: return None` — requests truthiness, so any response with
status `>= 400` yields `None`; otherwise the redirect history's URLs are
collected and a `Link` is constructed. -/
def create_link (net : Net) (t : Nat) (url anchor : String) :
    Except PyError (Option Link × Nat) := do
  let (data, t1) ← make_request net t url
  if data.ok = false then
    return (none, t1)
  else
    return (some (Link.init url anchor data.status_code (some data.history)), t1)

/-- The `for a in article.find_all('a')` loop body of
`check_medium_article_links` (src/link_checker.py:98-114): for each anchor in
order, normalize the href, build the Link via a live fetch, and keep it when
`create_link` returned a Link (`if the_link:`). Exceptions abort the whole
loop, as in Python. -/
def checkAnchors (net : Net) (current_domain : String) :
    Nat → List Tag → Except PyError (List Link × Nat)
  | t, [] => .ok ([], t)
  | t, a :: rest => do
    let href ← extract_href a current_domain "https" true
    let (the_link, t1) ← create_link net t href (pyStrip a.text)
    let (links, t2) ← checkAnchors net current_domain t1 rest
    match the_link with
    | some l => .ok (l :: links, t2)
    | none => .ok (links, t2)

/-- `check_medium_article_links(url)` (src/link_checker.py:84-114): fetch the
article page, take `soup.find('article')` (raising AttributeError at the
`article.find_all('a')` call when there is no `<article>` block), compute
`current_domain = tldextract.extract(url).fqdn` — note: from the *request*
URL `url`, not from the resolved `data.url` — and run the anchor loop. -/
def check_medium_article_links (net : Net) (t : Nat) (url : String) :
    Except PyError (List Link × Nat) := do
  let (data, t1) ← make_request net t url
  let current_domain := net.fqdn url
  match data.page.articles.head? with
  | none => .error .attributeError
  | some article => checkAnchors net current_domain t1 article.anchors

/-- The body of the `for article in articles` loop of
`get_medium_article_links` (src/link_checker.py:46-53): `article.find('a')`
is the first anchor (a Tag is always truthy, so `if link:` tests presence);
`data.url[-1]` raises IndexError on an empty base URL; `link['href']` raises
KeyError when the href attribute is missing; the query string is dropped when
a `'?'` occurs. Returns `none` when the block is skipped. -/
def listArticleLink (base : String) (article : ArticleBlock) :
    Except PyError (Option String) :=
  match article.anchors.head? with
  | none => .ok none
  | some link =>
    match pyLastChar base with
    | none => .error .indexError
    | some c =>
      let b := if c = '/' then pyDropLast base else base
      match link.href with
      | none => .error .keyError
      | some h =>
        let href := b ++ h
        .ok (some (if pyContains "?" href then pySplitQ href else href))

/-- The `for article in articles` loop of `get_medium_article_links`,
collecting the reconstructed article URLs in document order. -/
def listLoop (base : String) : List ArticleBlock → Except PyError (List String)
  | [] => .ok []
  | art :: rest => do
    let l? ← listArticleLink base art
    let ls ← listLoop base rest
    match l? with
    | some s => .ok (s :: ls)
    | none => .ok ls

/-- `get_medium_article_links(url)` (src/link_checker.py:26-55): fetch the
profile page and reconstruct one absolute article URL per `<article>` block
that contains an anchor, relative to the *resolved* URL `data.url`. -/
def get_medium_article_links (net : Net) (t : Nat) (url : String) :
    Except PyError (List String × Nat) := do
  let (data, t1) ← make_request net t url
  let links ← listLoop data.url data.page.articles
  return (links, t1)

/-- A JSON-like value, for the serialized form of a `Link`. -/
inductive JVal where
  | s : String → JVal
  | n : Nat → JVal
  | arr : List String → JVal
deriving DecidableEq, Repr

/-- `Link.to_dict` (src/link_checker.py:143-153): the five-field serializable
mapping, in the order the dict literal writes it. -/
def Link.to_dict (l : Link) : List (String × JVal) :=
  [("url", .s l.url), ("anchor", .s l.anchor), ("http_status", .n l.http_status),
   ("redirect_chain", .arr l.redirect_chain), ("final_url", .s l.final_url)]

/-- One output record of `check_medium_links`: the dict
`{'url': ..., 'timestamp': ..., 'links': ...}` (src/link_checker.py:180-186). -/
structure Report where
  url : String
  timestamp : String
  links : List (List (String × JVal))
deriving DecidableEq, Repr

/-- The `for link in links` loop of `check_medium_links`
(src/link_checker.py:177-186): check each article, then assemble its record;
`str(time.time())` is the clock value right after that article's checking,
string-encoded. -/
def checkLoop (net : Net) : Nat → List String → Except PyError (List Report × Nat)
  | t, [] => .ok ([], t)
  | t, link :: rest => do
    let (article_links, t2) ← check_medium_article_links net t link
    let rec1 : Report :=
      { url := link, timestamp := toString t2,
        links := article_links.map Link.to_dict }
    let (out, t3) ← checkLoop net t2 rest
    .ok (rec1 :: out, t3)

/-- `check_medium_links(profile_url)` (src/link_checker.py:156-187): list the
article URLs, then produce one record per article URL in order. -/
def check_medium_links (net : Net) (t : Nat) (profile_url : String) :
    Except PyError (List Report × Nat) := do
  let (links, t1) ← get_medium_article_links net t profile_url
  checkLoop net t1 links

/-- The value `extract_href` works with after the parameter-stripping step
(with `strip_params = true`): the href itself when it matches the
`'youtube.com/watch'` allow-list, else everything before the first `'?'`. -/
def strippedHref (hr : String) : String :=
  if pyContains "youtube.com/watch" hr then hr else pySplitQ hr

/-! ### Helper lemmas -/

theorem ok_bind {ε α β : Type} (a : α) (f : α → Except ε β) :
    ((Except.ok a : Except ε α) >>= f) = f a := rfl

theorem pure_eq_ok {ε α : Type} (a : α) : (pure a : Except ε α) = .ok a := rfl

theorem toList_ne_nil (s : String) (h : s ≠ "") : s.toList ≠ [] := by
  intro hl
  apply h
  cases s with
  | mk data =>
    have hd : data = [] := hl
    subst hd
    rfl

theorem containsQ_eq_false_notMem (l : List Char)
    (h : containsAux "?".toList l = false) : '?' ∉ l := by
  induction l with
  | nil => simp
  | cons c cs ih =>
    rw [containsAux] at h
    simp only [Bool.or_eq_false_iff] at h
    intro hmem
    rcases List.mem_cons.mp hmem with hc | hc
    · subst hc
      have h1 := h.1
      rw [show "?".toList = ['?'] from rfl] at h1
      simp [List.isPrefixOf] at h1
    · exact absurd hc (ih h.2)

/-- When the href contains no `'?'`, the query-stripping step is the
identity. -/
theorem pySplitQ_eq_self (s : String) (h : pyContains "?" s = false) :
    pySplitQ s = s := by
  have hmem := containsQ_eq_false_notMem s.toList h
  have : s.toList.takeWhile (fun c => decide (c ≠ '?')) = s.toList := by
    rw [List.takeWhile_eq_self_iff]
    intro x hx
    simp only [decide_eq_true_eq]
    intro hq
    exact hmem (hq ▸ hx)
  unfold pySplitQ
  rw [this]
  cases s
  rfl

/-- Evaluation of `extract_href` (with stripping on) when the stripped href is
nonempty: the result is the stripped href, with `scheme://domain` prepended
exactly when its first character is `'/'`. -/
theorem extract_href_eval (hr dom scheme t : String) (c : Char)
    (hc : pyFirstChar (strippedHref hr) = some c) :
    extract_href ⟨some hr, t⟩ dom scheme true
      = .ok (if c = '/' then scheme ++ "://" ++ dom ++ strippedHref hr
             else strippedHref hr) := by
  simp only [extract_href]
  unfold strippedHref at hc
  cases hb : pyContains "youtube.com/watch" hr <;>
    rw [hb] at hc <;>
    simp only [strippedHref, hb, Bool.not_false, Bool.not_true, Bool.true_and,
      Bool.false_eq_true, if_true, if_false, reduceIte] at hc ⊢ <;>
    rw [hc]

/-! ### C2 -/

/-- C2: the claim states that for an anchor with no `href` attribute,
`extract_href` returns the empty string rather than raising. The code's own
comment (`# return empty string if anchor not available`) confirms this
intent, but the `except AttributeError` clause does not catch the `KeyError`
that bs4's `Tag.__getitem__` actually raises, so the exception propagates:
the function raises `KeyError` for every such anchor, for any domain, scheme
and `strip_params` setting. -/
theorem extract_href_missing_href_raises (t dom scheme : String) (sp : Bool) :
    extract_href ⟨none, t⟩ dom scheme sp = .error .keyError := rfl

/-! ### C4 -/

/-- C4 counterexample: for the href `"/a?b=1"` (which begins with `'/'`),
`extract_href` with default arguments yields `"https://x.com/a"`, not the
claimed exact concatenation `scheme ++ "://" ++ domain ++ href` with the href
unchanged — the query string is stripped first. -/
theorem extract_href_relative_counterexample :
    extract_href ⟨some "/a?b=1", ""⟩ "x.com" "https" true = .ok "https://x.com/a"
    ∧ ("https://x.com/a" : String) ≠ "https" ++ "://" ++ "x.com" ++ "/a?b=1" := by
  constructor
  · rfl
  · decide

/-- C4 amended: for every href beginning with `'/'`, `extract_href` with
default arguments produces exactly `scheme ++ "://" ++ domain ++ h`, where `h`
is the href after the parameter-stripping step (`strippedHref`); when the
href contains no `'?'`, `h` is the href unchanged. -/
theorem extract_href_relative_amended (hr dom t : String) (tl : List Char)
    (hslash : hr.toList = '/' :: tl) :
    extract_href ⟨some hr, t⟩ dom "https" true
      = .ok ("https" ++ "://" ++ dom ++ strippedHref hr)
    ∧ (pyContains "?" hr = false → strippedHref hr = hr) := by
  have hhead : pyFirstChar (strippedHref hr) = some '/' := by
    unfold strippedHref
    cases hb : pyContains "youtube.com/watch" hr
    · simp only [if_neg, Bool.false_eq_true, reduceIte]
      unfold pyFirstChar pySplitQ
      show (hr.toList.takeWhile _).head? = some '/'
      rw [hslash, List.takeWhile_cons_of_pos (by decide)]
      rfl
    · simp only [if_pos, reduceIte]
      unfold pyFirstChar
      rw [hslash]
      rfl
  constructor
  · have h := extract_href_eval hr dom "https" t '/' hhead
    rw [h]
    simp
  · intro hq
    unfold strippedHref
    cases hb : pyContains "youtube.com/watch" hr
    · simp only [Bool.false_eq_true, reduceIte]
      exact pySplitQ_eq_self hr hq
    · simp

/-- C4 amended, witness: the href `"/a"` (no query string) is absolutized
unchanged. -/
theorem extract_href_relative_amended_witness :
    extract_href ⟨some "/a", "t"⟩ "x.com" "https" true
      = .ok ("https" ++ "://" ++ "x.com" ++ "/a") := by
  have h := extract_href_relative_amended "/a" "x.com" "t" ['a'] (by decide)
  rw [h.1, h.2 (by decide)]

/-! ### C5 -/

/-- C5 counterexample: the href `"?b=1"` does not match the allow-list, yet
`extract_href` with default arguments does not return it with the query
removed — stripping leaves the empty string and the subsequent `href[0]`
check raises IndexError. -/
theorem strip_params_counterexample :
    extract_href ⟨some "?b=1", ""⟩ "x.com" "https" true = .error .indexError
    ∧ pyContains "youtube.com/watch" "?b=1" = false := by
  constructor
  · rfl
  · decide

/-- C5 amended: with parameter stripping enabled, for every href that does
not match the allow-list and whose part before the first `'?'` is nonempty,
everything from the first `'?'` onward is removed (the result is built from
`pySplitQ` of the href); for every nonempty href matching the allow-list
(`'youtube.com/watch'` substring) the href — query parameters included — is
preserved verbatim. An href whose stripped form is empty instead raises
IndexError (see the counterexample). -/
theorem strip_params_amended (hr dom t : String) :
    (pyContains "youtube.com/watch" hr = false →
      ∀ (c : Char) (cs : List Char), (pySplitQ hr).toList = c :: cs →
        extract_href ⟨some hr, t⟩ dom "https" true
          = .ok (if c = '/' then "https" ++ "://" ++ dom ++ pySplitQ hr
                 else pySplitQ hr))
    ∧ (pyContains "youtube.com/watch" hr = true →
      ∀ (c : Char) (cs : List Char), hr.toList = c :: cs →
        extract_href ⟨some hr, t⟩ dom "https" true
          = .ok (if c = '/' then "https" ++ "://" ++ dom ++ hr else hr)) := by
  constructor
  · intro hb c cs hcs
    have hs : strippedHref hr = pySplitQ hr := by
      unfold strippedHref
      rw [hb]
      simp
    have hc : pyFirstChar (strippedHref hr) = some c := by
      rw [hs]
      unfold pyFirstChar
      rw [hcs]
      rfl
    have h := extract_href_eval hr dom "https" t c hc
    rw [h, hs]
  · intro hb c cs hcs
    have hs : strippedHref hr = hr := by
      unfold strippedHref
      rw [hb]
      simp
    have hc : pyFirstChar (strippedHref hr) = some c := by
      rw [hs]
      unfold pyFirstChar
      rw [hcs]
      rfl
    have h := extract_href_eval hr dom "https" t c hc
    rw [h, hs]

/-- C5 amended, witness: the spec's own examples — a plain URL loses its
query string, a youtube watch URL keeps it verbatim. -/
theorem strip_params_amended_witness :
    extract_href ⟨some "http://x.com/a?b=1", ""⟩ "x.com" "https" true
      = .ok "http://x.com/a"
    ∧ extract_href ⟨some "https://www.youtube.com/watch?v=1", ""⟩ "x.com" "https" true
      = .ok "https://www.youtube.com/watch?v=1" := by
  constructor
  · exact (strip_params_amended "http://x.com/a?b=1" "x.com" "").1 (by decide)
      'h' "ttp://x.com/a".toList (by decide)
  · exact (strip_params_amended "https://www.youtube.com/watch?v=1" "x.com" "").2
      (by decide) 'h' "ttps://www.youtube.com/watch?v=1".toList (by decide)

/-! ### C6 -/

/-- C6: for every constructed `Link`, whatever the constructor arguments,
`final_url` equals `url` when `redirect_chain` is empty and equals the last
element of `redirect_chain` otherwise. -/
theorem link_final_url_invariant (url anchor : String) (st : Nat)
    (rc : Option (List String)) :
    ((Link.init url anchor st rc).redirect_chain = [] →
      (Link.init url anchor st rc).final_url = url)
    ∧ (∀ (l : List String) (h : l ≠ []),
        (Link.init url anchor st rc).redirect_chain = l →
        (Link.init url anchor st rc).final_url = l.getLast h) := by
  constructor
  · intro hchain
    unfold Link.init at hchain ⊢
    simp only at hchain ⊢
    rw [hchain]
    rfl
  · intro l hne hchain
    unfold Link.init at hchain ⊢
    simp only at hchain ⊢
    rw [hchain]
    have hlen : l.length ≠ 0 := by
      intro h0
      exact hne (List.eq_nil_of_length_eq_zero h0)
    rw [if_neg hlen, List.getLastD_eq_getLast?, List.getLast?_eq_getLast l hne]
    rfl

/-- C6 witness: a Link constructed with a two-element redirect chain has the
chain's last element as `final_url`. -/
theorem link_final_url_invariant_witness :
    (Link.init "u" "a" 200 (some ["r1", "r2"])).final_url = "r2" := by
  have h := (link_final_url_invariant "u" "a" 200 (some ["r1", "r2"])).2
    ["r1", "r2"] (by decide) rfl
  rw [h]
  rfl

/-! ### Concrete networks for the end-to-end and failure scenarios -/

/-- The spec's end-to-end scenario: a profile with two articles, each article
containing three links of which one resolves with HTTP 404 (the fetch itself
succeeds and returns a response). -/
def net1 : Net :=
  { fetch := fun u =>
      if u = "https://medium.com/@pub" then
        some { url := "https://medium.com/@pub", status_code := 200, history := [],
               page := ⟨[⟨[⟨some "/art1", "x"⟩]⟩, ⟨[⟨some "/art2", "y"⟩]⟩]⟩ }
      else if u = "https://medium.com/@pub/art1" then
        some { url := "https://medium.com/@pub/art1", status_code := 200, history := [],
               page := ⟨[⟨[⟨some "https://a.com/1", "l1"⟩, ⟨some "https://a.com/2", "l2"⟩,
                          ⟨some "https://a.com/404", "l3"⟩]⟩]⟩ }
      else if u = "https://medium.com/@pub/art2" then
        some { url := "https://medium.com/@pub/art2", status_code := 200, history := [],
               page := ⟨[⟨[⟨some "https://a.com/1", "l1"⟩, ⟨some "https://a.com/2", "l2"⟩,
                          ⟨some "https://a.com/404", "l3"⟩]⟩]⟩ }
      else if u = "https://a.com/1" then
        some { url := "https://a.com/1", status_code := 200, history := [], page := ⟨[]⟩ }
      else if u = "https://a.com/2" then
        some { url := "https://a.com/2", status_code := 200, history := [], page := ⟨[]⟩ }
      else if u = "https://a.com/404" then
        some { url := "https://a.com/404", status_code := 404, history := [], page := ⟨[]⟩ }
      else none,
    fqdn := fun _ => "medium.com" }

/-- Three article pages exercising the three per-link failure modes: a link
whose fetch fails at network level, an anchor with no href attribute, and an
anchor with an empty href. -/
def net3 : Net :=
  { fetch := fun u =>
      if u = "https://m.com/a" then
        some { url := "https://m.com/a", status_code := 200, history := [],
               page := ⟨[⟨[⟨some "https://dead.example/x", "d"⟩]⟩]⟩ }
      else if u = "https://m.com/b" then
        some { url := "https://m.com/b", status_code := 200, history := [],
               page := ⟨[⟨[⟨none, "b"⟩]⟩]⟩ }
      else if u = "https://m.com/c" then
        some { url := "https://m.com/c", status_code := 200, history := [],
               page := ⟨[⟨[⟨some "", "c"⟩]⟩]⟩ }
      else none,
    fqdn := fun _ => "m.com" }

/-- An article URL redirected to a different (canonical) host: the request
URL and the final resolved URL have different fully qualified domains. The
article body holds one root-relative link `/foo`. -/
def net8 : Net :=
  { fetch := fun u =>
      if u = "https://pub.medium.com/art" then
        some { url := "https://medium.com/@pub/art", status_code := 200,
               history := ["https://pub.medium.com/art"],
               page := ⟨[⟨[⟨some "/foo", "f"⟩]⟩]⟩ }
      else if u = "https://pub.medium.com/foo" then
        some { url := "https://pub.medium.com/foo", status_code := 200,
               history := [], page := ⟨[]⟩ }
      else none,
    fqdn := fun u =>
      if u = "https://pub.medium.com/art" then "pub.medium.com"
      else if u = "https://medium.com/@pub/art" then "medium.com"
      else "" }

/-- An article page whose HTML contains no `<article>` element. -/
def net10 : Net :=
  { fetch := fun u =>
      if u = "https://m.com/a" then
        some { url := "https://m.com/a", status_code := 200, history := [],
               page := ⟨[]⟩ }
      else none,
    fqdn := fun _ => "m.com" }

/-! ### C1 -/

/-- C1: the claim (and the docstring of `check_medium_links`, which speaks of
checking links "for http status (e.g. 200 vs. 404)") says a link that
resolves with HTTP 404 still yields a Link record with `http_status` 404 in
the article's report, only total fetch failures being excluded. The code
instead drops every such link: `if not data` in `Link.create_link` uses
requests truthiness, which is false for any status `>= 400`, so
`create_link` returns `None` for a 404 response. On the spec's own
end-to-end scenario (profile → 2 articles → 3 links each, statuses
200/200/404) every report record carries only 2 link entries, the 404 link
is absent, and `create_link` returns `None` even though the fetch succeeded
(`net1.fetch` returns a response for the 404 URL). -/
theorem medium_404_links_excluded :
    (check_medium_links net1 0 "https://medium.com/@pub").map
        (fun p => p.1.map (fun r => (r.url, r.links.length)))
      = .ok [("https://medium.com/@pub/art1", 2), ("https://medium.com/@pub/art2", 2)]
    ∧ (check_medium_article_links net1 0 "https://medium.com/@pub/art1").map
        (fun p => p.1.map (fun l => (l.url, l.http_status)))
      = .ok [("https://a.com/1", 200), ("https://a.com/2", 200)]
    ∧ create_link net1 0 "https://a.com/404" "z" = .ok (none, 1)
    ∧ (net1.fetch "https://a.com/404").isSome = true := by
  refine ⟨rfl, rfl, rfl, rfl⟩

/-! ### C3 -/

/-- C3: the claim says the Link Checker silently omits links with empty
normalized hrefs and links whose fetch fails entirely, and that no exception
escapes for an individual link check. The code's `if the_link:` guard and
`create_link`'s `if not data: return None` show this skip-on-failure intent,
but there is no try/except anywhere on the path, so in each failure case an
exception escapes `check_medium_article_links`: a network-level fetch failure
propagates the requests exception; an anchor with no href propagates bs4's
KeyError; an anchor with an empty href reaches `href[0]` and propagates
IndexError. -/
theorem check_article_failures_raise :
    check_medium_article_links net3 0 "https://m.com/a" = .error .connectionError
    ∧ check_medium_article_links net3 0 "https://m.com/b" = .error .keyError
    ∧ check_medium_article_links net3 0 "https://m.com/c" = .error .indexError := by
  refine ⟨rfl, rfl, rfl⟩

/-! ### C10 -/

/-- C10: for every article page whose HTML contains no `<article>` element,
`soup.find('article')` returns `None` and the unguarded
`article.find_all('a')` raises AttributeError — the function raises instead
of returning an empty sequence. -/
theorem missing_article_block_raises (net : Net) (t : Nat) (url : String)
    (data : Response) (t1 : Nat)
    (hf : make_request net t url = .ok (data, t1))
    (hempty : data.page.articles = []) :
    check_medium_article_links net t url = .error .attributeError := by
  unfold check_medium_article_links
  rw [hf]
  simp only [ok_bind]
  rw [hempty]
  rfl

/-- C10 witness: a concrete page with no `<article>` element makes
`check_medium_article_links` raise AttributeError. -/
theorem missing_article_block_raises_witness :
    check_medium_article_links net10 0 "https://m.com/a" = .error .attributeError :=
  missing_article_block_raises net10 0 "https://m.com/a"
    { url := "https://m.com/a", status_code := 200, history := [], page := ⟨[]⟩ }
    1 rfl rfl

/-! ### C8 -/

/-- C8 counterexample: with `net8`, requesting
`https://pub.medium.com/art` resolves (after a redirect) to
`https://medium.com/@pub/art`, whose fully qualified domain is
`medium.com`; yet the relative link `/foo` is absolutized against
`pub.medium.com` — the domain extracted from the *originally requested* URL —
contradicting the claim that the final resolved URL's domain is used. -/
theorem domain_from_request_counterexample :
    (check_medium_article_links net8 0 "https://pub.medium.com/art").map
        (fun p => p.1.map Link.url)
      = .ok ["https://pub.medium.com/foo"]
    ∧ (net8.fetch "https://pub.medium.com/art").map Response.url
      = some "https://medium.com/@pub/art"
    ∧ net8.fqdn "https://medium.com/@pub/art" = "medium.com"
    ∧ ("https://pub.medium.com/foo" : String)
      ≠ "https" ++ "://" ++ "medium.com" ++ "/foo" := by
  refine ⟨rfl, rfl, rfl, by decide⟩

/-- C8 amended: the domain used to absolutize relative hrefs is
`tldextract.extract(url).fqdn` of the *originally requested* article URL,
not of the final resolved URL: for any network and any article page carrying
a single root-relative link, the constructed Link's URL is
`https://` ++ `net.fqdn url` ++ href. -/
theorem domain_from_request_amended (net : Net) (t : Nat)
    (url hx txt : String) (tl : List Char) (data resp2 : Response)
    (hs : hasScheme url = true)
    (hf : net.fetch url = some data)
    (harts : data.page.articles = [⟨[⟨some hx, txt⟩]⟩])
    (hslash : hx.toList = '/' :: tl)
    (hq : pyContains "?" hx = false)
    (hs2 : hasScheme ("https" ++ "://" ++ net.fqdn url ++ hx) = true)
    (hf2 : net.fetch ("https" ++ "://" ++ net.fqdn url ++ hx) = some resp2)
    (hok : resp2.status_code < 400) :
    check_medium_article_links net t url
      = .ok ([Link.init ("https" ++ "://" ++ net.fqdn url ++ hx) (pyStrip txt)
                resp2.status_code (some resp2.history)], t + 2) := by
  have hmr : make_request net t url = .ok (data, t + 1) := by
    unfold make_request
    rw [hs, hf]
    simp
  have hex : extract_href ⟨some hx, txt⟩ (net.fqdn url) "https" true
      = .ok ("https" ++ "://" ++ net.fqdn url ++ hx) := by
    have h := extract_href_relative_amended hx (net.fqdn url) txt tl hslash
    rw [h.1, h.2 hq]
  have hmr2 : make_request net (t + 1) ("https" ++ "://" ++ net.fqdn url ++ hx)
      = .ok (resp2, t + 2) := by
    unfold make_request
    rw [hs2, hf2]
    simp
  have hcl : create_link net (t + 1) ("https" ++ "://" ++ net.fqdn url ++ hx)
        (pyStrip txt)
      = .ok (some (Link.init ("https" ++ "://" ++ net.fqdn url ++ hx)
          (pyStrip txt) resp2.status_code (some resp2.history)), t + 2) := by
    unfold create_link
    rw [hmr2]
    have hok2 : resp2.ok = true := by
      unfold Response.ok
      simpa using hok
    simp [ok_bind, pure_eq_ok, hok2]
  unfold check_medium_article_links
  rw [hmr]
  simp only [ok_bind]
  rw [harts]
  show checkAnchors net (net.fqdn url) (t + 1) [⟨some hx, txt⟩] = _
  simp only [checkAnchors]
  rw [hex]
  simp only [ok_bind]
  rw [hcl]
  simp only [ok_bind]

/-- C8 amended, witness: the concrete redirected article of `net8`. -/
theorem domain_from_request_amended_witness :
    check_medium_article_links net8 0 "https://pub.medium.com/art"
      = .ok ([Link.init ("https" ++ "://" ++ net8.fqdn "https://pub.medium.com/art" ++ "/foo")
                (pyStrip "f") 200 (some [])], 2) :=
  domain_from_request_amended net8 0 "https://pub.medium.com/art" "/foo" "f"
    "foo".toList
    { url := "https://medium.com/@pub/art", status_code := 200,
      history := ["https://pub.medium.com/art"],
      page := ⟨[⟨[⟨some "/foo", "f"⟩]⟩]⟩ }
    { url := "https://pub.medium.com/foo", status_code := 200,
      history := [], page := ⟨[]⟩ }
    (by decide) rfl rfl (by decide) (by decide) (by decide) rfl
    (by decide)

/-! ### C7 -/

/-- The resolved page URL with a trailing slash trimmed
(`data.url[:-1] if data.url[-1] == '/' else data.url`, totalised). -/
def trimSlash (u : String) : String :=
  if pyLastChar u = some '/' then pyDropLast u else u

/-- Specification-side treatment of one article block (§4.3 of the spec,
stated in the spec's words, for comparison with the code): take the first
hyperlink if any, concatenate the resolved base URL (trailing slash trimmed)
with its href, and strip any query string; `none` means the block is
skipped. -/
def specItem (base : String) (b : ArticleBlock) : Option String :=
  (b.anchors.head?).bind fun a =>
    a.href.map fun h => pySplitQ (trimSlash base ++ h)

/-- Specification-side Article Link Lister: one absolute URL per hyperlinked
block, in document order, duplicates kept. -/
def listerSpec (base : String) (blocks : List ArticleBlock) : List String :=
  blocks.filterMap (specItem base)

/-- The conditional query-strip in `get_medium_article_links`
(`href.split('?')[0] if "?" in href else href`) always equals `pySplitQ`. -/
theorem stripIf_eq_pySplitQ (x : String) :
    (if pyContains "?" x then pySplitQ x else x) = pySplitQ x := by
  cases hq : pyContains "?" x
  · rw [if_neg (by simp [hq]), pySplitQ_eq_self x hq]
  · rw [if_pos (by simp [hq])]

theorem listArticleLink_eq_spec (base : String) (b : ArticleBlock)
    (hb : base ≠ "")
    (hh : (b.anchors.head?.all fun a => a.href.isSome) = true) :
    listArticleLink base b = .ok (specItem base b) := by
  unfold listArticleLink specItem
  cases hb1 : b.anchors.head? with
  | none => rfl
  | some link =>
    rw [hb1] at hh
    have hhref : link.href.isSome = true := hh
    have hl : pyLastChar base ≠ none := by
      unfold pyLastChar
      simp only [ne_eq, List.getLast?_eq_none_iff]
      exact toList_ne_nil base hb
    cases hc : pyLastChar base with
    | none => exact absurd hc hl
    | some c =>
      cases hhr : link.href with
      | none =>
        rw [hhr] at hhref
        exact Bool.noConfusion hhref
      | some h =>
        have htrim : (if c = '/' then pyDropLast base else base) = trimSlash base := by
          unfold trimSlash
          rw [hc]
          by_cases hcc : c = '/'
          · rw [if_pos hcc, if_pos (by rw [hcc])]
          · rw [if_neg hcc, if_neg (by simp [hcc])]
        dsimp only
        rw [hhr]
        dsimp only
        rw [htrim, stripIf_eq_pySplitQ]
        simp [hhr]

theorem listLoop_eq_spec (base : String) (blocks : List ArticleBlock)
    (hb : base ≠ "")
    (hh : ∀ b ∈ blocks, (b.anchors.head?.all fun a => a.href.isSome) = true) :
    listLoop base blocks = .ok (listerSpec base blocks) := by
  induction blocks with
  | nil => rfl
  | cons b rest ih =>
    have hrest := ih (fun b2 hb2 => hh b2 (List.mem_cons_of_mem _ hb2))
    rw [listLoop, listArticleLink_eq_spec base b hb
      (hh b (List.mem_cons_self b rest))]
    simp only [ok_bind]
    rw [hrest]
    simp only [ok_bind]
    unfold listerSpec
    cases hsi : specItem base b with
    | none => rw [List.filterMap_cons_none hsi]
    | some s => rw [List.filterMap_cons_some hsi]

theorem length_filterMap_all_isSome {α β : Type} (f : α → Option β)
    (l : List α) (h : ∀ x ∈ l, (f x).isSome = true) :
    (l.filterMap f).length = l.length := by
  induction l with
  | nil => rfl
  | cons x xs ih =>
    cases hfx : f x with
    | none =>
      have := h x (List.mem_cons_self x xs)
      rw [hfx] at this
      exact Bool.noConfusion this
    | some b =>
      rw [List.filterMap_cons_some hfx, List.length_cons, List.length_cons,
        ih (fun y hy => h y (List.mem_cons_of_mem _ hy))]

/-- C7: for every fetched profile page with a nonempty resolved URL whose
blocks' first hyperlinks (when present) all carry an href, the Article Link
Lister returns exactly the spec-side list: for zero blocks the empty
sequence; one absolute URL per hyperlinked block, in document order, built
by concatenating the resolved page URL (trailing slash trimmed) with the
href and stripping any query string; blocks with no hyperlink are skipped
silently and duplicates are kept. If moreover every block has a hyperlink
with an href, the output length equals the number of blocks. -/
theorem lister_characterization (net : Net) (t : Nat) (url : String)
    (data : Response) (t1 : Nat)
    (hf : make_request net t url = .ok (data, t1))
    (hb : data.url ≠ "")
    (hh : ∀ b ∈ data.page.articles,
      (b.anchors.head?.all fun a => a.href.isSome) = true) :
    get_medium_article_links net t url
      = .ok (listerSpec data.url data.page.articles, t1)
    ∧ ((∀ b ∈ data.page.articles, (b.anchors.head?.bind Tag.href).isSome = true) →
        (listerSpec data.url data.page.articles).length
          = data.page.articles.length) := by
  constructor
  · unfold get_medium_article_links
    rw [hf]
    simp only [ok_bind]
    rw [listLoop_eq_spec data.url data.page.articles hb hh]
    simp only [ok_bind]
    rfl
  · intro hall
    unfold listerSpec
    apply length_filterMap_all_isSome
    intro b hbmem
    have h2 := hall b hbmem
    unfold specItem
    cases hb1 : b.anchors.head? with
    | none =>
      rw [hb1] at h2
      exact Bool.noConfusion h2
    | some a =>
      rw [hb1] at h2
      have h3 : a.href.isSome = true := h2
      cases ha : a.href with
      | none =>
        rw [ha] at h3
        exact Bool.noConfusion h3
      | some h4 => simp [ha]

/-- A profile page resolving (with a trailing slash) to `https://m.com/`,
listing one hyperlinked article block (with a tracking parameter) and one
block with no hyperlink. -/
def net7 : Net :=
  { fetch := fun u =>
      if u = "https://m.com" then
        some { url := "https://m.com/", status_code := 200, history := [],
               page := ⟨[⟨[⟨some "/p1?src=x", "A"⟩]⟩, ⟨[]⟩]⟩ }
      else none,
    fqdn := fun _ => "m.com" }

/-- C7 witness: the concrete profile of `net7` — the hyperlinked block yields
`https://m.com/p1` (slash trimmed, query stripped), the empty block is
skipped. -/
theorem lister_characterization_witness :
    get_medium_article_links net7 0 "https://m.com"
      = .ok (["https://m.com/p1"], 1) := by
  have h := (lister_characterization net7 0 "https://m.com"
    { url := "https://m.com/", status_code := 200, history := [],
      page := ⟨[⟨[⟨some "/p1?src=x", "A"⟩]⟩, ⟨[]⟩]⟩ } 1 rfl (by decide)
    (by decide)).1
  rw [h]
  rfl

/-! ### C9 -/

theorem make_request_clock (net : Net) (t : Nat) (u : String) (r : Response)
    (t1 : Nat) (h : make_request net t u = .ok (r, t1)) : t ≤ t1 := by
  unfold make_request at h
  by_cases hs : hasScheme u = false
  · rw [if_pos hs] at h
    exact Except.noConfusion h
  · rw [if_neg hs] at h
    cases hf : net.fetch u <;> rw [hf] at h
    · exact Except.noConfusion h
    · simp only [Except.ok.injEq, Prod.mk.injEq] at h
      omega

theorem create_link_clock (net : Net) (t : Nat) (url anchor : String)
    (l? : Option Link) (t1 : Nat)
    (h : create_link net t url anchor = .ok (l?, t1)) : t ≤ t1 := by
  unfold create_link at h
  cases hmr : make_request net t url with
  | error e =>
    rw [hmr] at h
    exact Except.noConfusion h
  | ok p =>
    obtain ⟨r, t2⟩ := p
    rw [hmr] at h
    simp only [ok_bind] at h
    have hle := make_request_clock net t url r t2 hmr
    by_cases hok : r.ok = false
    · rw [if_pos hok] at h
      simp only [pure_eq_ok, Except.ok.injEq, Prod.mk.injEq] at h
      omega
    · rw [if_neg hok] at h
      simp only [pure_eq_ok, Except.ok.injEq, Prod.mk.injEq] at h
      omega

theorem checkAnchors_clock (net : Net) (dom : String) :
    ∀ (l : List Tag) (t : Nat) (links : List Link) (t1 : Nat),
      checkAnchors net dom t l = .ok (links, t1) → t ≤ t1 := by
  intro l
  induction l with
  | nil =>
    intro t links t1 h
    rw [checkAnchors] at h
    simp only [Except.ok.injEq, Prod.mk.injEq] at h
    omega
  | cons a rest ih =>
    intro t links t1 h
    rw [checkAnchors] at h
    cases hex : extract_href a dom "https" true <;> rw [hex] at h
    · exact Except.noConfusion h
    · simp only [ok_bind] at h
      rename_i v
      cases hcl : create_link net t v (pyStrip a.text) with
      | error e =>
        rw [hcl] at h
        exact Except.noConfusion h
      | ok p =>
        obtain ⟨l?, t2⟩ := p
        rw [hcl] at h
        simp only [ok_bind] at h
        cases hca : checkAnchors net dom t2 rest with
        | error e =>
          rw [hca] at h
          exact Except.noConfusion h
        | ok q =>
          obtain ⟨links2, t3⟩ := q
          rw [hca] at h
          simp only [ok_bind] at h
          have h1 := create_link_clock net t v (pyStrip a.text) l? t2 hcl
          have h2 := ih t2 links2 t3 hca
          cases l? <;>
            simp only [Except.ok.injEq, Prod.mk.injEq] at h <;>
            omega

theorem check_article_clock (net : Net) (t : Nat) (url : String)
    (links : List Link) (t1 : Nat)
    (h : check_medium_article_links net t url = .ok (links, t1)) : t ≤ t1 := by
  unfold check_medium_article_links at h
  cases hmr : make_request net t url with
  | error e =>
    rw [hmr] at h
    exact Except.noConfusion h
  | ok p =>
    obtain ⟨data, t2⟩ := p
    rw [hmr] at h
    simp only [ok_bind] at h
    have h1 := make_request_clock net t url data t2 hmr
    cases hhd : data.page.articles.head? <;> rw [hhd] at h
    · exact Except.noConfusion h
    · have h2 := checkAnchors_clock net (net.fqdn url) _ t2 links t1 h
      omega

/-- Characterization of the `for link in links` report loop: one record per
article URL, in order, each carrying that URL, the serialized link dicts of
its check, and a timestamp that is the (string-encoded) clock value when
that article's checking completed. -/
theorem checkLoop_spec (net : Net) :
    ∀ (arts : List String) (t : Nat) (out : List Report) (tf : Nat),
      checkLoop net t arts = .ok (out, tf) →
      out.length = arts.length ∧ t ≤ tf ∧
      (∀ i, i < out.length →
        ∃ rec aurl links tb te,
          out[i]? = some rec ∧ arts[i]? = some aurl ∧
          rec.url = aurl ∧
          check_medium_article_links net tb aurl = .ok (links, te) ∧
          rec.links = links.map Link.to_dict ∧
          rec.timestamp = toString te ∧
          t ≤ tb ∧ tb ≤ te ∧ te ≤ tf ∧
          (∀ d ∈ rec.links,
            d.map Prod.fst
              = ["url", "anchor", "http_status", "redirect_chain", "final_url"])) := by
  intro arts
  induction arts with
  | nil =>
    intro t out tf h
    rw [checkLoop] at h
    simp only [Except.ok.injEq, Prod.mk.injEq] at h
    obtain ⟨h1, h2⟩ := h
    subst h1
    subst h2
    refine ⟨rfl, le_refl _, ?_⟩
    intro i hi
    simp at hi
  | cons link rest ih =>
    intro t out tf h
    rw [checkLoop] at h
    cases hca : check_medium_article_links net t link with
    | error e =>
      rw [hca] at h
      exact Except.noConfusion h
    | ok p =>
      obtain ⟨ls, t2⟩ := p
      rw [hca] at h
      simp only [ok_bind] at h
      cases hcl : checkLoop net t2 rest with
      | error e =>
        rw [hcl] at h
        exact Except.noConfusion h
      | ok q =>
        obtain ⟨out2, t3⟩ := q
        rw [hcl] at h
        simp only [ok_bind, Except.ok.injEq, Prod.mk.injEq] at h
        obtain ⟨hout, htf⟩ := h
        subst htf
        obtain ⟨hlen, hle, hspec⟩ := ih t2 out2 t3 hcl
        have hta := check_article_clock net t link ls t2 hca
        refine ⟨?_, ?_, ?_⟩
        · rw [← hout]
          simp [hlen]
        · omega
        · intro i hi
          rw [← hout] at hi ⊢
          cases i with
          | zero =>
            refine ⟨_, link, ls, t, t2, List.getElem?_cons_zero,
              List.getElem?_cons_zero, rfl, hca, rfl, rfl, le_refl t, hta,
              hle, ?_⟩
            intro d hd
            simp only [List.mem_map] at hd
            obtain ⟨l0, _, rfl⟩ := hd
            rfl
          | succ j =>
            have hj : j < out2.length := by
              simp only [List.length_cons] at hi
              omega
            obtain ⟨rec, aurl, links, tb, te, e1, e2, e3, e4, e5, e6, e7, e8,
              e9, e10⟩ := hspec j hj
            refine ⟨rec, aurl, links, tb, te, ?_, ?_, e3, e4, e5, e6,
              by omega, e8, e9, e10⟩
            · rw [List.getElem?_cons_succ]
              exact e1
            · rw [List.getElem?_cons_succ]
              exact e2

/-- C9: for every profile run that returns normally, the Report Assembler
produces exactly one record per discovered article URL, in discovery order;
each record carries that article URL, the article's Link records serialized
as five-field mappings (`url`, `anchor`, `http_status`, `redirect_chain`,
`final_url`, in that order), and a string-encoded timestamp equal to the
clock value at the moment that article's link checking completed (a moment
no earlier than the start of the run and of that article's checking). -/
theorem report_assembler_characterization (net : Net) (t : Nat)
    (purl : String) (arts : List String) (t1 : Nat) (out : List Report)
    (tf : Nat)
    (hl : get_medium_article_links net t purl = .ok (arts, t1))
    (hr : check_medium_links net t purl = .ok (out, tf)) :
    out.length = arts.length ∧
    (∀ i, i < out.length →
      ∃ rec aurl links tb te,
        out[i]? = some rec ∧ arts[i]? = some aurl ∧
        rec.url = aurl ∧
        check_medium_article_links net tb aurl = .ok (links, te) ∧
        rec.links = links.map Link.to_dict ∧
        rec.timestamp = toString te ∧
        t ≤ tb ∧ tb ≤ te ∧
        (∀ d ∈ rec.links,
          d.map Prod.fst
            = ["url", "anchor", "http_status", "redirect_chain", "final_url"])) := by
  unfold check_medium_links at hr
  rw [hl] at hr
  simp only [ok_bind] at hr
  obtain ⟨hlen, hle, hspec⟩ := checkLoop_spec net arts t1 out tf hr
  have ht1 : t ≤ t1 := by
    unfold get_medium_article_links at hl
    cases hmr : make_request net t purl with
    | error e =>
      rw [hmr] at hl
      exact Except.noConfusion hl
    | ok p =>
      obtain ⟨data, t2⟩ := p
      rw [hmr] at hl
      simp only [ok_bind] at hl
      cases hll : listLoop data.url data.page.articles <;> rw [hll] at hl
      · exact Except.noConfusion hl
      · simp only [ok_bind, pure_eq_ok, Except.ok.injEq, Prod.mk.injEq] at hl
        obtain ⟨-, ht2⟩ := hl
        have := make_request_clock net t purl data t2 hmr
        omega
  refine ⟨hlen, ?_⟩
  intro i hi
  obtain ⟨rec, aurl, links, tb, te, e1, e2, e3, e4, e5, e6, e7, e8, _, e10⟩ :=
    hspec i hi
  exact ⟨rec, aurl, links, tb, te, e1, e2, e3, e4, e5, e6, by omega, e8, e10⟩

/-- A one-article profile for exercising the Report Assembler end to end. -/
def net9 : Net :=
  { fetch := fun u =>
      if u = "https://m.com/@p" then
        some { url := "https://m.com/@p", status_code := 200, history := [],
               page := ⟨[⟨[⟨some "/a1", "T"⟩]⟩]⟩ }
      else if u = "https://m.com/@p/a1" then
        some { url := "https://m.com/@p/a1", status_code := 200, history := [],
               page := ⟨[⟨[⟨some "https://ok.com", "A"⟩]⟩]⟩ }
      else if u = "https://ok.com" then
        some { url := "https://ok.com", status_code := 200, history := [],
               page := ⟨[]⟩ }
      else none,
    fqdn := fun _ => "m.com" }

/-- C9 witness: on the concrete profile of `net9` the run returns one record
for the one discovered article. -/
theorem report_assembler_witness :
    ([{ url := "https://m.com/@p/a1", timestamp := "3",
        links := [[("url", JVal.s "https://ok.com"), ("anchor", JVal.s "A"),
                   ("http_status", JVal.n 200), ("redirect_chain", JVal.arr []),
                   ("final_url", JVal.s "https://ok.com")]] }] : List Report).length
      = (["https://m.com/@p/a1"] : List String).length :=
  (report_assembler_characterization net9 0 "https://m.com/@p"
    ["https://m.com/@p/a1"] 1
    [{ url := "https://m.com/@p/a1", timestamp := "3",
       links := [[("url", JVal.s "https://ok.com"), ("anchor", JVal.s "A"),
                  ("http_status", JVal.n 200), ("redirect_chain", JVal.arr []),
                  ("final_url", JVal.s "https://ok.com")]] }] 3 rfl rfl).1

end LinkChecker
